import Mathlib

/-!
Shallow embedding of the journal-matching pipeline of `notebooks/journals.ipynb`.

The notebook builds three tables — reference pairs extracted from SCOPUS
documents, a serials registry, and a subscription export — lower-cases titles,
filters reference pairs, tallies citation counts, inner-joins the tally with
the serials on the lower-cased title, left-outer-joins the result with the
subscription table on a title/ISSN/eISSN disjunction, and writes the results
to parquet files.

Strings are modelled as lists of Unicode code points (`Str`); a SQL NULL is
`Option.none`.  Spark SQL comparisons follow the SQL three-valued logic
(`sqlEq`, `sqlNe`, `sqlAnd`, `sqlOr`); a join or filter keeps a row only when
its condition evaluates to `some true` (`istrue`).  Spark `lower` is modelled
on the ASCII range (`lowerChar`), which covers every title occurring in the
notebook data, and `regexp_replace(_, " & ", " and ")` is `replAnd`, a
left-to-right non-overlapping literal replacement exactly as Java regex
performs it.  The Python truthiness-based `and` on strings is `pyAnd`.
-/

namespace Scopus

/-- Titles and identifiers as lists of Unicode code points. -/
abbrev Str := List Nat

/-- Code points of a Lean string literal, used to write concrete titles. -/
def codes (s : String) : Str := s.data.map Char.toNat

/-- ASCII lower-casing of one code point, the effect of Spark `lower` on the
notebook data. -/
def lowerChar (c : Nat) : Nat := if 65 ≤ c ∧ c ≤ 90 then c + 32 else c

/-- Lower-casing of a title: `lower(col)` in the notebook. -/
def lowerStr (s : Str) : Str := s.map lowerChar

/-- The four-character literal string "null" that the notebook compares
columns against. -/
def nullStr : Str := codes "null"

/-- SQL equality of two nullable strings: NULL when either side is NULL. -/
def sqlEq (a b : Option Str) : Option Bool :=
  match a, b with
  | some x, some y => some (decide (x = y))
  | _, _ => none

/-- SQL inequality of two nullable strings: NULL when either side is NULL. -/
def sqlNe (a b : Option Str) : Option Bool :=
  match a, b with
  | some x, some y => some (decide (x ≠ y))
  | _, _ => none

/-- SQL three-valued conjunction. -/
def sqlAnd : Option Bool → Option Bool → Option Bool
  | some false, _ => some false
  | _, some false => some false
  | some true, some true => some true
  | _, _ => none

/-- SQL three-valued disjunction. -/
def sqlOr : Option Bool → Option Bool → Option Bool
  | some true, _ => some true
  | _, some true => some true
  | some false, some false => some false
  | _, _ => none

/-- A filter or join condition keeps a row only when it evaluates to TRUE
(NULL behaves like FALSE). -/
def istrue : Option Bool → Bool
  | some true => true
  | _ => false

/-- Python `and` on two strings: the left operand if it is falsy (empty),
otherwise the right operand. -/
def pyAnd (a b : Str) : Str := if a = [] then a else b

/-- Code point of the ASCII apostrophe. -/
def apos : Nat := 39

/-- The first condition string of the chained filter in the extractor cell. -/
def cond1 : Str := codes "ref_journal_lc!=" ++ [apos] ++ codes "null" ++ [apos]

/-- The second condition string of the chained filter in the extractor cell. -/
def cond2 : Str := codes "ref_title_lc!=" ++ [apos] ++ codes "null" ++ [apos]

/-- The third condition string of the chained filter in the extractor cell. -/
def cond3 : Str := codes "ref_journal_lc!=ref_title_lc"

/-- Spark SQL meaning of each of the three condition strings, over a row
carrying the lower-cased source title `lcs` and work title `lct`. -/
def condSem (c : Str) (lcs lct : Option Str) : Option Bool :=
  if c = cond1 then sqlNe lcs (some nullStr)
  else if c = cond2 then sqlNe lct (some nullStr)
  else if c = cond3 then sqlNe lcs lct
  else none

/-- Literal replacement of " & " by " and ", scanning left to right without
overlap and resuming after each match, as Java `replaceAll` does for this
regex-metacharacter-free pattern. -/
def replAnd : Str → Str
  | [] => []
  | [c] => [c]
  | [c, d] => [c, d]
  | c :: d :: e :: rest =>
    if c = 32 ∧ d = 38 ∧ e = 32 then 32 :: 97 :: 110 :: 100 :: 32 :: replAnd rest
    else c :: replAnd (d :: e :: rest)

/-- Whether the string contains an occurrence of " & ". -/
def hasAmp : Str → Bool
  | c :: d :: e :: rest =>
    if c = 32 ∧ d = 38 ∧ e = 32 then true else hasAmp (d :: e :: rest)
  | _ => false

/-- The normalization applied to subscription titles in the notebook:
lower-case, then replace " & " by " and ". -/
def ss_normalize (s : Str) : Str := replAnd (lowerStr s)

/-- One exploded reference pair: the cast `sourcetitle` and `title` columns,
each a nullable string. -/
structure RefPair where
  sourcetitle : Option Str
  title : Option Str
deriving DecidableEq

/-- The retention test the extractor actually applies to a reference pair:
the chained-`and` filter argument evaluates to its last condition
(`ref_journal_lc != ref_title_lc`), and the subsequent separate filter applies
the comparison of ref_journal_lc with the literal string null. -/
def keepPair (p : RefPair) : Bool :=
  istrue (sqlNe (p.sourcetitle.map lowerStr) (p.title.map lowerStr)) &&
  istrue (sqlNe (p.sourcetitle.map lowerStr) (some nullStr))

/-- The rows that survive the extractor filters, projected to
`(ref_journal, ref_journal_lc)`; retention guarantees the source title is
present, so the default never fires. -/
def retainedKeys (pairs : List RefPair) : List (Str × Str) :=
  (pairs.filter keepPair).map fun p =>
    (p.sourcetitle.getD [], lowerStr (p.sourcetitle.getD []))

/-- One row of the citation tally produced by
grouping on the raw and lower-cased title together and counting. -/
structure TallyRow where
  ref_journal : Str
  ref_journal_lc : Str
  count : Nat
deriving DecidableEq

/-- The citation tally: one row per distinct `(ref_journal, ref_journal_lc)`
pair among the retained rows, carrying how many retained rows share that
pair. -/
def refTally (pairs : List RefPair) : List TallyRow :=
  (retainedKeys pairs).dedup.map fun k =>
    ⟨k.1, k.2, (retainedKeys pairs).count k⟩

/-- One serials-registry row as selected by the notebook SQL query. -/
structure Serial where
  serial_id : Str
  serial : Option Str
  serial_issn : Option Str
  serial_eissn : Option Str
  open_access : Option Str
deriving DecidableEq

/-- The computed `serial_lc` column: the lower-cased serial title. -/
def serial_lc (s : Serial) : Option Str := s.serial.map lowerStr

/-- One subscription row after the notebook normalizes it: `Title` is already
lower-cased with " & " replaced by " and "; `ISSN` and `eISSN` are untouched. -/
structure Sub where
  Title : Option Str
  ISSN : Option Str
  eISSN : Option Str
deriving DecidableEq

/-- Relational inner join: every pair of rows satisfying the predicate. -/
def innerJoin (p : α → β → Bool) (xs : List α) (ys : List β) : List (α × β) :=
  xs.flatMap fun a => (ys.filter fun b => p a b).map fun b => (a, b)

/-- Relational left-outer join: rows with at least one match fan out over
their matches; rows with none survive once with a NULL right side. -/
def leftOuterJoin (p : α → β → Bool) (xs : List α) (ys : List β) :
    List (α × Option β) :=
  xs.flatMap fun a =>
    match ys.filter (fun b => p a b) with
    | [] => [(a, none)]
    | m :: ms => (m :: ms).map fun b => (a, some b)

/-- The serial-join condition `ref_journal_lc == serial_lc`. -/
def serialPred (t : TallyRow) (s : Serial) : Bool :=
  istrue (sqlEq (some t.ref_journal_lc) (serial_lc s))

/-- Stage 1: the tally inner-joined with the serials registry. -/
def stage1 (pairs : List RefPair) (serials : List Serial) :
    List (TallyRow × Serial) :=
  innerJoin serialPred (refTally pairs) serials

/-- The subscription-join condition: title equality, or a serial ISSN that
differs from the literal string "null" and equals the subscription ISSN or
eISSN, or likewise for the serial eISSN — all under SQL NULL semantics. -/
def subMatch (r : TallyRow × Serial) (b : Sub) : Bool :=
  istrue (sqlOr (sqlOr
      (sqlEq (some r.1.ref_journal_lc) b.Title)
      (sqlAnd (sqlNe r.2.serial_issn (some nullStr))
        (sqlOr (sqlEq r.2.serial_issn b.ISSN) (sqlEq r.2.serial_issn b.eISSN))))
    (sqlAnd (sqlNe r.2.serial_eissn (some nullStr))
      (sqlOr (sqlEq r.2.serial_eissn b.eISSN) (sqlEq r.2.serial_eissn b.ISSN))))

/-- Stage 2: stage 1 left-outer-joined with the subscription table. -/
def stage2 (pairs : List RefPair) (serials : List Serial) (subs : List Sub) :
    List ((TallyRow × Serial) × Option Sub) :=
  leftOuterJoin subMatch (stage1 pairs serials) subs

/-- The matching predicate exactly as claim C1 words it (for comparison with
`subMatch`): titles equal, or a present serial ISSN equal to the subscription
ISSN or eISSN, or a present serial eISSN equal to either. -/
def claimMatch (r : TallyRow × Serial) (b : Sub) : Prop :=
  b.Title = some r.1.ref_journal_lc ∨
  (r.2.serial_issn.isSome ∧ (b.ISSN = r.2.serial_issn ∨ b.eISSN = r.2.serial_issn)) ∨
  (r.2.serial_eissn.isSome ∧ (b.eISSN = r.2.serial_eissn ∨ b.ISSN = r.2.serial_eissn))

instance (r : TallyRow × Serial) (b : Sub) : Decidable (claimMatch r b) := by
  unfold claimMatch; infer_instance

/-- A Python value as the `my_zip` helper sees it: a string, `None`, a tuple,
or a list. -/
inductive PyVal where
  | vstr (s : Str)
  | vnull
  | vpair (a b : PyVal)
  | vlist (xs : List PyVal)

/-- Python isinstance test for list. -/
def PyVal.isList : PyVal → Bool
  | .vlist _ => true
  | _ => false

/-- The notebook helper: zip two lists element-wise (Python `zip` truncates to
the shorter input), and otherwise fall back to the two-element list
`[x, y]`. -/
def my_zip (x y : PyVal) : PyVal :=
  match x, y with
  | .vlist xs, .vlist ys => .vlist ((xs.zip ys).map fun q => .vpair q.1 q.2)
  | x, y => .vlist [x, y]

/-- Spark `DataFrameWriter.save` with no explicit mode: the default save mode is
ErrorIfExists, so the write fails when the target path already holds data and
records the output otherwise.  The store maps paths to saved contents. -/
def saveParquet (fs : List (String × Nat)) (path : String) (d : Nat) :
    Except String (List (String × Nat)) :=
  if fs.any fun q => decide (q.1 = path) then Except.error "path already exists"
  else Except.ok ((path, d) :: fs)

/-! ### Helper lemmas -/

theorem istrue_some (b : Bool) : istrue (some b) = b := by cases b <;> rfl

theorem istrue_none : istrue none = false := rfl

theorem istrue_sqlOr :
    ∀ (a b : Option Bool), istrue (sqlOr a b) = (istrue a || istrue b) := by decide

theorem istrue_sqlAnd :
    ∀ (a b : Option Bool), istrue (sqlAnd a b) = (istrue a && istrue b) := by decide

theorem istrue_sqlEq_iff (a b : Option Str) :
    istrue (sqlEq a b) = true ↔ ∃ v, a = some v ∧ b = some v := by
  cases a <;> cases b <;> simp [sqlEq, istrue_some, istrue_none]
  exact eq_comm

theorem istrue_sqlNe_null_iff (a : Option Str) :
    istrue (sqlNe a (some nullStr)) = true ↔ ∃ v, a = some v ∧ v ≠ nullStr := by
  cases a <;> simp [sqlNe, istrue_some, istrue_none]

theorem sql_branch_iff (a x y : Option Str) :
    ((∃ v, a = some v ∧ v ≠ nullStr) ∧
      ((∃ v, a = some v ∧ x = some v) ∨ (∃ v, a = some v ∧ y = some v))) ↔
    ∃ v, a = some v ∧ v ≠ nullStr ∧ (x = some v ∨ y = some v) := by
  cases a <;> simp

theorem replAnd_of_not_hasAmp : ∀ {l : Str}, hasAmp l = false → replAnd l = l := by
  intro l
  induction l using replAnd.induct with
  | case1 => intro _; rfl
  | case2 c => intro _; rfl
  | case3 c d => intro _; rfl
  | case4 c d e rest h ih =>
      intro hl
      rw [hasAmp] at hl
      rw [if_pos h] at hl
      exact absurd hl (by simp)
  | case5 c d e rest h ih =>
      intro hl
      rw [hasAmp, if_neg h] at hl
      rw [replAnd, if_neg h, ih hl]

theorem length_replAnd_ge : ∀ (l : Str), l.length ≤ (replAnd l).length := by
  intro l
  induction l using replAnd.induct with
  | case1 => simp [replAnd]
  | case2 c => simp [replAnd]
  | case3 c d => simp [replAnd]
  | case4 c d e rest h ih => rw [replAnd, if_pos h]; simp_all; omega
  | case5 c d e rest h ih => rw [replAnd, if_neg h]; simp_all

theorem length_replAnd_lt : ∀ {l : Str}, hasAmp l = true →
    l.length < (replAnd l).length := by
  intro l
  induction l using replAnd.induct with
  | case1 => intro hl; simp [hasAmp] at hl
  | case2 c => intro hl; simp [hasAmp] at hl
  | case3 c d => intro hl; simp [hasAmp] at hl
  | case4 c d e rest h ih =>
      intro _
      rw [replAnd, if_pos h]
      have := length_replAnd_ge rest
      simp; omega
  | case5 c d e rest h ih =>
      intro hl
      rw [hasAmp, if_neg h] at hl
      rw [replAnd, if_neg h]
      have := ih hl
      simp_all

theorem lowerChar_lowerChar (c : Nat) : lowerChar (lowerChar c) = lowerChar c := by
  by_cases h : 65 ≤ c ∧ c ≤ 90
  · have h2 : ¬(65 ≤ c + 32 ∧ c + 32 ≤ 90) := by omega
    simp [lowerChar, h, h2]
    omega
  · simp [lowerChar, h]

theorem mem_replAnd : ∀ {l : Str} {c : Nat}, c ∈ replAnd l →
    c ∈ l ∨ c = 97 ∨ c = 110 ∨ c = 100 ∨ c = 32 := by
  intro l
  induction l using replAnd.induct with
  | case1 => intro c hc; simp [replAnd] at hc
  | case2 a => intro c hc; simp [replAnd] at hc; simp [hc]
  | case3 a b => intro c hc; simp [replAnd] at hc; rcases hc with h | h <;> simp [h]
  | case4 a b e rest h ih =>
      intro c hc
      rw [replAnd, if_pos h] at hc
      simp at hc
      rcases hc with h1 | h1 | h1 | h1 | h1 | h1
      · omega
      · omega
      · omega
      · omega
      · omega
      · rcases ih h1 with h2 | h2
        · left; simp [h2]
        · right; exact h2
  | case5 a b e rest h ih =>
      intro c hc
      rw [replAnd, if_neg h] at hc
      simp at hc
      rcases hc with h1 | h1
      · left; simp [h1]
      · rcases ih h1 with h2 | h2
        · left; simp at h2; rcases h2 with h3 | h3 <;> simp [h3]
        · right; exact h2

theorem lowerStr_of_fixed {l : Str} (h : ∀ c ∈ l, lowerChar c = c) :
    lowerStr l = l := by
  unfold lowerStr
  induction l with
  | nil => rfl
  | cons a rest ih =>
      simp only [List.map_cons]
      rw [h a (by simp), ih fun c hc => h c (by simp [hc])]

theorem lowerStr_replAnd_lowered (x : Str) :
    lowerStr (replAnd (lowerStr x)) = replAnd (lowerStr x) := by
  apply lowerStr_of_fixed
  intro c hc
  rcases mem_replAnd hc with h | h
  · simp only [lowerStr, List.mem_map] at h
    obtain ⟨a, _, rfl⟩ := h
    exact lowerChar_lowerChar a
  · rcases h with h | h | h | h <;> subst h <;> rfl

theorem ss_normalize_eq_lower_iff (t : Str) :
    ss_normalize t = lowerStr t ↔ hasAmp (lowerStr t) = false := by
  constructor
  · intro h
    by_contra hc
    have h2 : hasAmp (lowerStr t) = true := by simpa using hc
    have h3 := length_replAnd_lt h2
    rw [ss_normalize] at h
    rw [h] at h3
    omega
  · intro h
    simpa [ss_normalize] using replAnd_of_not_hasAmp h

theorem keepPair_iff (p : RefPair) :
    keepPair p = true ↔ ∃ s t, p.sourcetitle = some s ∧ p.title = some t ∧
      lowerStr s ≠ lowerStr t ∧ lowerStr s ≠ nullStr := by
  obtain ⟨st, tt⟩ := p
  cases st <;> cases tt <;>
    simp [keepPair, sqlNe, istrue_some, istrue_none]

theorem mem_retainedKeys {pairs : List RefPair} {k : Str × Str} :
    k ∈ retainedKeys pairs ↔
      ∃ p ∈ pairs, keepPair p = true ∧
        ∃ s, p.sourcetitle = some s ∧ k = (s, lowerStr s) := by
  simp only [retainedKeys, List.mem_map, List.mem_filter]
  constructor
  · rintro ⟨p, ⟨hp, hk⟩, rfl⟩
    obtain ⟨s, t, hs, _⟩ := (keepPair_iff p).1 hk
    exact ⟨p, hp, hk, s, hs, by simp [hs]⟩
  · rintro ⟨p, hp, hk, s, hs, rfl⟩
    exact ⟨p, ⟨hp, hk⟩, by simp [hs]⟩

theorem mem_refTally {pairs : List RefPair} {raw lc : Str} {c : Nat} :
    (⟨raw, lc, c⟩ : TallyRow) ∈ refTally pairs ↔
      (raw, lc) ∈ retainedKeys pairs ∧
        c = (retainedKeys pairs).count (raw, lc) := by
  simp only [refTally, List.mem_map, List.mem_dedup]
  constructor
  · rintro ⟨⟨k1, k2⟩, hk, heq⟩
    injection heq with h1 h2 h3
    subst h1; subst h2; subst h3
    exact ⟨hk, rfl⟩
  · rintro ⟨hmem, rfl⟩
    exact ⟨(raw, lc), hmem, rfl⟩

theorem mem_innerJoin {p : α → β → Bool} {xs : List α} {ys : List β}
    {r : α × β} :
    r ∈ innerJoin p xs ys ↔ r.1 ∈ xs ∧ r.2 ∈ ys ∧ p r.1 r.2 = true := by
  obtain ⟨a, b⟩ := r
  simp only [innerJoin, List.mem_flatMap, List.mem_map, List.mem_filter]
  constructor
  · rintro ⟨a1, ha1, b1, ⟨hb1, hp⟩, heq⟩
    injection heq with h1 h2
    subst h1; subst h2
    exact ⟨ha1, hb1, hp⟩
  · rintro ⟨ha, hb, hp⟩
    exact ⟨a, ha, b, ⟨hb, hp⟩, rfl⟩

theorem mem_leftOuterJoin_some {p : α → β → Bool} {xs : List α} {ys : List β}
    {a : α} {b : β} :
    (a, some b) ∈ leftOuterJoin p xs ys ↔ a ∈ xs ∧ b ∈ ys ∧ p a b = true := by
  simp only [leftOuterJoin, List.mem_flatMap]
  constructor
  · rintro ⟨a1, ha1, hmem⟩
    rcases hys : ys.filter (fun b => p a1 b) with _ | ⟨m, ms⟩
    · rw [hys] at hmem; simp at hmem
    · rw [hys] at hmem
      simp only [List.mem_map] at hmem
      obtain ⟨b1, hb1, heq⟩ := hmem
      have hf : b1 ∈ ys.filter (fun x => p a1 x) := by rw [hys]; exact hb1
      rw [List.mem_filter] at hf
      have h1 : a1 = a := congrArg Prod.fst heq
      have h2 : b1 = b := Option.some.inj (congrArg Prod.snd heq)
      rw [h1] at ha1 hf
      rw [h2] at hf
      exact ⟨ha1, hf.1, hf.2⟩
  · rintro ⟨ha, hb, hp⟩
    refine ⟨a, ha, ?_⟩
    have hmem : b ∈ ys.filter (fun b1 => p a b1) := by
      rw [List.mem_filter]; exact ⟨hb, hp⟩
    rcases hys : ys.filter (fun b1 => p a b1) with _ | ⟨m, ms⟩
    · rw [hys] at hmem; simp at hmem
    · rw [hys] at hmem
      simp only [List.mem_map]
      exact ⟨b, hmem, rfl⟩

theorem mem_leftOuterJoin_none {p : α → β → Bool} {xs : List α} {ys : List β}
    {a : α} :
    (a, (none : Option β)) ∈ leftOuterJoin p xs ys ↔
      a ∈ xs ∧ ∀ b ∈ ys, p a b = false := by
  simp only [leftOuterJoin, List.mem_flatMap]
  constructor
  · rintro ⟨a1, ha1, hmem⟩
    rcases hys : ys.filter (fun b => p a1 b) with _ | ⟨m, ms⟩
    · rw [hys] at hmem
      simp at hmem
      subst hmem
      refine ⟨ha1, fun b hb => ?_⟩
      by_contra hc
      have : b ∈ ys.filter (fun b => p a b) := by
        rw [List.mem_filter]
        exact ⟨hb, by simpa using hc⟩
      rw [hys] at this
      simp at this
    · rw [hys] at hmem
      simp only [List.mem_map] at hmem
      obtain ⟨b1, _, heq⟩ := hmem
      injection heq with h1 h2
      exact absurd h2 (by simp)
  · rintro ⟨ha, hall⟩
    refine ⟨a, ha, ?_⟩
    have hys : ys.filter (fun b => p a b) = [] := by
      rw [List.filter_eq_nil_iff]
      intro b hb
      simp [hall b hb]
    rw [hys]
    simp

theorem zip_getElem? {α β : Type} :
    ∀ (xs : List α) (ys : List β) (i : Nat),
      (xs.zip ys)[i]? = xs[i]?.bind fun a => ys[i]?.map fun b => (a, b) := by
  intro xs
  induction xs with
  | nil => intro ys i; simp
  | cons a xs ih =>
      intro ys i
      cases ys with
      | nil => simp
      | cons b ys =>
          cases i with
          | zero => simp
          | succ n => simpa using ih ys n

theorem mem_leftOuterJoin_fst {p : α → β → Bool} {xs : List α} {ys : List β}
    {r : α × Option β} (h : r ∈ leftOuterJoin p xs ys) : r.1 ∈ xs := by
  simp only [leftOuterJoin, List.mem_flatMap] at h
  obtain ⟨a1, ha1, hmem⟩ := h
  rcases hys : ys.filter (fun b => p a1 b) with _ | ⟨m, ms⟩
  · rw [hys] at hmem
    simp at hmem
    simp [hmem, ha1]
  · rw [hys] at hmem
    simp only [List.mem_map] at hmem
    obtain ⟨b1, _, heq⟩ := hmem
    rw [← heq]
    exact ha1

/-! ### Claim theorems -/

/-- Claim C8: `my_zip` applied to two lists returns their element-wise zip
truncated to the shorter length; applied to inputs where at least one is not a
list it falls back to the single `[first, second]` result rather than raising
an error (`my_zip` is total). -/
theorem C8_my_zip :
    (∀ xs ys : List PyVal, ∃ zs : List PyVal,
        my_zip (.vlist xs) (.vlist ys) = .vlist zs ∧
        zs.length = min xs.length ys.length ∧
        ∀ i : Nat, zs[i]? = (xs[i]?.bind fun a => ys[i]?.map fun b => .vpair a b)) ∧
    (∀ x y : PyVal, x.isList = false ∨ y.isList = false →
        my_zip x y = .vlist [x, y]) := by
  constructor
  · intro xs ys
    refine ⟨(xs.zip ys).map fun q => PyVal.vpair q.1 q.2, ?_, ?_, ?_⟩
    · rfl
    · simp
    · intro i
      rw [List.getElem?_map, zip_getElem?]
      cases hx : xs[i]? <;> cases hy : ys[i]? <;> simp
  · intro x y h
    cases x <;> cases y <;> first
      | rfl
      | (simp [PyVal.isList] at h)

/-- Claim C8 witness: `my_zip` at concrete inputs — two lists of lengths 2 and
1 zip to a single pair, and a non-list argument produces the two-element
fallback. -/
theorem C8_witness :
    my_zip (.vlist [.vstr (codes "a"), .vstr (codes "b")]) (.vlist [.vnull]) =
      .vlist [.vpair (.vstr (codes "a")) .vnull] ∧
    my_zip (.vstr (codes "a")) .vnull = .vlist [.vstr (codes "a"), .vnull] :=
  ⟨rfl, C8_my_zip.2 (.vstr (codes "a")) .vnull (Or.inl rfl)⟩

/-- Claim C9 counterexample: the subscription-title normalization is not
idempotent: on " & & " one pass yields " and & ", which still contains " & ",
and a second pass yields " and and ". -/
theorem C9_counterexample :
    ss_normalize (ss_normalize (codes " & & ")) ≠ ss_normalize (codes " & & ") ∧
    ss_normalize (codes " & & ") = codes " and & " ∧
    ss_normalize (ss_normalize (codes " & & ")) = codes " and and " := by decide

/-- Claim C9 amended: the normalization is case-insensitive — inputs with the
same lower-casing normalize alike, and "Nature" and "NATURE" both normalize to
"nature" — and it is idempotent at an input exactly when its normal form
contains no remaining " & " occurrence: if none remains the second pass is the
identity, and if one remains the second pass strictly lengthens the string
(which is what happens for " & & "). -/
theorem C9_amended :
    (∀ x y : Str, lowerStr x = lowerStr y → ss_normalize x = ss_normalize y) ∧
    ss_normalize (codes "Nature") = codes "nature" ∧
    ss_normalize (codes "NATURE") = codes "nature" ∧
    (∀ x : Str, ss_normalize (ss_normalize x) = ss_normalize x ↔
        hasAmp (ss_normalize x) = false) := by
  refine ⟨?_, by decide, by decide, ?_⟩
  · intro x y h
    unfold ss_normalize
    rw [h]
  · intro x
    have key : ss_normalize (ss_normalize x) = replAnd (ss_normalize x) := by
      unfold ss_normalize
      rw [lowerStr_replAnd_lowered x]
    constructor
    · intro h
      by_contra hc
      have h2 : hasAmp (ss_normalize x) = true := by simpa using hc
      have h3 := length_replAnd_lt h2
      rw [← key, h] at h3
      omega
    · intro h
      rw [key]
      exact replAnd_of_not_hasAmp h

/-- Claim C9 witness: case-insensitivity and idempotence at concrete
inputs. -/
theorem C9_witness :
    ss_normalize (codes "NatURE") = ss_normalize (codes "nAture") ∧
    ss_normalize (ss_normalize (codes "Science")) = ss_normalize (codes "Science") :=
  ⟨C9_amended.1 (codes "NatURE") (codes "nAture") (by decide),
   (C9_amended.2.2.2 (codes "Science")).mpr (by decide)⟩

/-- Claim C6 counterexample: Python `and` over non-empty string literals
returns the LAST operand, not the first, so the chained filter argument equals
the third condition string; on a row whose lower-cased source and work titles
are both "health" the first condition would keep the row while the condition
actually applied drops it, so the chained filter is not equivalent to the
first condition alone. -/
theorem C6_counterexample :
    pyAnd (pyAnd cond1 cond2) cond3 = cond3 ∧
    cond3 ≠ cond1 ∧
    condSem cond1 (some (codes "health")) (some (codes "health")) = some true ∧
    condSem (pyAnd (pyAnd cond1 cond2) cond3)
      (some (codes "health")) (some (codes "health")) = some false := by decide

/-- Claim C6 amended: chaining the three non-empty condition strings with
Python `and` evaluates to the LAST string, so that filter call is equivalent
to filtering on the third condition (ref_journal_lc != ref_title_lc) alone;
the first two strings of that call are discarded (the first condition is
reapplied only by the separate subsequent filter). -/
theorem C6_amended :
    pyAnd (pyAnd cond1 cond2) cond3 = cond3 ∧
    ∀ lcs lct : Option Str,
      condSem (pyAnd (pyAnd cond1 cond2) cond3) lcs lct = condSem cond3 lcs lct := by
  refine ⟨by decide, ?_⟩
  intro lcs lct
  rw [show pyAnd (pyAnd cond1 cond2) cond3 = cond3 by decide]

/-- Claim C6 witness: the chained condition at a concrete row. -/
theorem C6_witness :
    condSem (pyAnd (pyAnd cond1 cond2) cond3) (some (codes "x")) none =
      condSem cond3 (some (codes "x")) none :=
  C6_amended.2 (some (codes "x")) none

/-- Claim C7 counterexample: the notebook saves with the engine default
error-if-exists mode, so writing the reference output path twice in a row
fails on the second write instead of overwriting. -/
theorem C7_counterexample :
    (saveParquet [] "../data/ref_journals.parquet" 0).bind
        (fun fs => saveParquet fs "../data/ref_journals.parquet" 0) =
      Except.error "path already exists" := by rfl

/-- Claim C7 amended: the writes use the engine default error-if-exists mode:
saving to an absent path succeeds and records the output, saving to an
already-present path fails with an error and neither overwrites nor appends,
so a re-run over the existing outputs fails rather than succeeding. -/
theorem C7_amended (fs : List (String × Nat)) (path : String) (d : Nat) :
    ((fs.any fun q => decide (q.1 = path)) = false →
      saveParquet fs path d = Except.ok ((path, d) :: fs)) ∧
    ((fs.any fun q => decide (q.1 = path)) = true →
      saveParquet fs path d = Except.error "path already exists") := by
  constructor
  · intro h
    simp [saveParquet, h]
  · intro h
    simp [saveParquet, h]

/-- Claim C7 witness: saving the publication output path into an empty store
succeeds; saving it again fails. -/
theorem C7_witness :
    saveParquet [] "../data/pub_journals.parquet" 7 =
      Except.ok [("../data/pub_journals.parquet", 7)] ∧
    saveParquet [("../data/pub_journals.parquet", 7)] "../data/pub_journals.parquet" 7 =
      Except.error "path already exists" :=
  ⟨(C7_amended [] "../data/pub_journals.parquet" 7).1 rfl,
   (C7_amended [("../data/pub_journals.parquet", 7)] "../data/pub_journals.parquet" 7).2
     (by rfl)⟩

/-- Claim C5 counterexample: reference and serial titles are only lower-cased
(no " & " replacement), while subscription titles also get " & " replaced by
" and "; hence the serial "Theory, Culture & Society" and the subscription
"Theory, Culture and Society" normalize to different strings and do not
title-match in the subscription join. -/
theorem C5_counterexample :
    lowerStr (codes "Theory, Culture & Society") =
      codes "theory, culture & society" ∧
    ss_normalize (codes "Theory, Culture and Society") =
      codes "theory, culture and society" ∧
    lowerStr (codes "Theory, Culture & Society") ≠
      ss_normalize (codes "Theory, Culture and Society") ∧
    subMatch
      (⟨codes "Theory, Culture & Society",
        lowerStr (codes "Theory, Culture & Society"), 1⟩,
       ⟨codes "15979", some (codes "Theory, Culture & Society"), none, none, none⟩)
      ⟨some (ss_normalize (codes "Theory, Culture and Society")), none, none⟩
      = false := by decide

/-- Claim C5 amended: two different normalizations are in play — subscription
titles are lower-cased and then " & " is replaced by " and ", while reference
and serial titles are only lower-cased — and the two agree exactly on the
titles whose lower-casing contains no " & " occurrence. -/
theorem C5_amended (t : Str) :
    ss_normalize t = lowerStr t ↔ hasAmp (lowerStr t) = false :=
  ss_normalize_eq_lower_iff t

/-- Claim C5 witness: on an ampersand-free title the two normalizations
agree. -/
theorem C5_witness :
    ss_normalize (codes "Nature") = lowerStr (codes "Nature") :=
  (C5_amended (codes "Nature")).mpr (by decide)

/-- Claim C4 counterexample: a pair whose source title is present ("Nature")
but whose work title is absent (SQL NULL) is dropped by the extractor — the
inequality filter evaluates to NULL — although none of the three drop
conditions (both fields missing; both present with equal normalized titles;
normalized source title missing) applies to it. -/
theorem C4_counterexample :
    keepPair ⟨some (codes "Nature"), none⟩ = false ∧
    (⟨some (codes "Nature"), none⟩ : RefPair).sourcetitle ≠ none ∧
    (⟨some (codes "Nature"), none⟩ : RefPair).title = none ∧
    lowerStr (codes "Nature") ≠ nullStr := by decide

/-- Claim C4 amended: a reference pair is retained iff both fields are
present, their lower-casings differ, and the lower-cased source title is not
the literal string "null"; in particular a pair with a present source title
and an absent (SQL NULL) work title is dropped, while a present work title
equal to the string "null" with a differing present source title is
retained. -/
theorem C4_amended (p : RefPair) :
    keepPair p = true ↔
      ∃ s t, p.sourcetitle = some s ∧ p.title = some t ∧
        lowerStr s ≠ lowerStr t ∧ lowerStr s ≠ nullStr :=
  keepPair_iff p

/-- Claim C4 witness: a pair with source "Nature" and the present work title
"null" is retained. -/
theorem C4_witness :
    keepPair ⟨some (codes "Nature"), some (codes "null")⟩ = true :=
  (C4_amended ⟨some (codes "Nature"), some (codes "null")⟩).mpr
    ⟨codes "Nature", codes "null", rfl, rfl, by decide, by decide⟩

/-- Claim C3 counterexample: the tally groups by the pair of raw and
lower-cased title, so the retained pairs "Health" and "HEALTH" (same
normalized title "health") produce two tally rows of count 1 each, not one
row of count 2. -/
theorem C3_counterexample :
    (refTally [⟨some (codes "Health"), some (codes "A")⟩,
               ⟨some (codes "HEALTH"), some (codes "B")⟩]).length = 2 ∧
    (⟨codes "Health", codes "health", 1⟩ : TallyRow) ∈
      refTally [⟨some (codes "Health"), some (codes "A")⟩,
                ⟨some (codes "HEALTH"), some (codes "B")⟩] ∧
    (⟨codes "HEALTH", codes "health", 1⟩ : TallyRow) ∈
      refTally [⟨some (codes "Health"), some (codes "A")⟩,
                ⟨some (codes "HEALTH"), some (codes "B")⟩] ∧
    ∀ t ∈ refTally [⟨some (codes "Health"), some (codes "A")⟩,
                    ⟨some (codes "HEALTH"), some (codes "B")⟩],
      t.count ≠ 2 := by decide

/-- Claim C3 amended: the grouping key is the pair (raw title, normalized
title): a row (raw, lc, c) is in the tally iff (raw, lc) occurs among the
retained rows and c counts the retained rows sharing BOTH components, so
retained pairs whose raw titles differ only in case land in distinct rows. -/
theorem C3_amended (pairs : List RefPair) (raw lc : Str) (c : Nat) :
    (⟨raw, lc, c⟩ : TallyRow) ∈ refTally pairs ↔
      ((raw, lc) ∈ retainedKeys pairs ∧
        c = (retainedKeys pairs).count (raw, lc)) :=
  mem_refTally

/-- Claim C3 witness: a single retained pair produces its tally row. -/
theorem C3_witness :
    (⟨codes "Health", codes "health", 1⟩ : TallyRow) ∈
      refTally [⟨some (codes "Health"), some (codes "Unrelated")⟩] :=
  (C3_amended [⟨some (codes "Health"), some (codes "Unrelated")⟩]
    (codes "Health") (codes "health") 1).mpr (by decide)

/-- Claim C10: missingness of a reference field is tested by comparison with
the four-character literal "null": a pair whose source title lower-cases to
"null" is dropped just like one whose source title is absent, and no tally
row, serial-join row or subscription-join row carries a raw title that
lower-cases to "null". -/
theorem C10_null_literal :
    (∀ p : RefPair, p.sourcetitle.map lowerStr = some nullStr →
        keepPair p = false) ∧
    (∀ p : RefPair, p.sourcetitle = none → keepPair p = false) ∧
    (∀ pairs (t : TallyRow), t ∈ refTally pairs →
        lowerStr t.ref_journal ≠ nullStr ∧ t.ref_journal_lc ≠ nullStr) ∧
    (∀ pairs serials (r : TallyRow × Serial), r ∈ stage1 pairs serials →
        lowerStr r.1.ref_journal ≠ nullStr) ∧
    (∀ pairs serials subs (row : (TallyRow × Serial) × Option Sub),
        row ∈ stage2 pairs serials subs →
        lowerStr row.1.1.ref_journal ≠ nullStr) := by
  have h1 : ∀ p : RefPair, p.sourcetitle.map lowerStr = some nullStr →
      keepPair p = false := by
    intro p h
    obtain ⟨st, tt⟩ := p
    cases st with
    | none => simp at h
    | some s =>
        simp only [Option.map_some] at h
        injection h with h
        cases tt <;> simp [keepPair, sqlNe, istrue_some, istrue_none, h]
  have h3 : ∀ pairs (t : TallyRow), t ∈ refTally pairs →
      lowerStr t.ref_journal ≠ nullStr ∧ t.ref_journal_lc ≠ nullStr := by
    intro pairs t ht
    obtain ⟨raw, lc, c⟩ := t
    rw [mem_refTally] at ht
    obtain ⟨hk, _⟩ := ht
    rw [mem_retainedKeys] at hk
    obtain ⟨p, _, hkeep, s, hs, heq⟩ := hk
    obtain ⟨s1, t1, hs1, _, _, hnn⟩ := (keepPair_iff p).1 hkeep
    rw [hs] at hs1
    injection hs1 with hs1
    injection heq with e1 e2
    subst e1; subst e2; subst hs1
    exact ⟨hnn, hnn⟩
  have h4 : ∀ pairs serials (r : TallyRow × Serial), r ∈ stage1 pairs serials →
      lowerStr r.1.ref_journal ≠ nullStr := by
    intro pairs serials r hr
    unfold stage1 at hr
    rw [mem_innerJoin] at hr
    exact (h3 pairs r.1 hr.1).1
  refine ⟨h1, ?_, h3, h4, ?_⟩
  · intro p h
    obtain ⟨st, tt⟩ := p
    simp only at h
    subst h
    simp [keepPair, sqlNe, istrue_none]
  · intro pairs serials subs row hrow
    unfold stage2 at hrow
    exact h4 pairs serials row.1 (mem_leftOuterJoin_fst hrow)

/-- Claim C10 witness: a journal actually titled "Null" is discarded by the
extractor. -/
theorem C10_witness :
    keepPair ⟨some (codes "Null"), some (codes "Something")⟩ = false :=
  C10_null_literal.1 ⟨some (codes "Null"), some (codes "Something")⟩ (by decide)

/-- Claim C2 (join semantics, modelling the dataflow the notebook displays):
the serial join is inner — a row is in stage 1 exactly when a tally row pairs
with a serial whose lower-cased title matches, so unmatched tally rows are
dropped — and the subscription join is left-outer — a stage-1 row always
reaches stage 2, with the subscription side null exactly when no subscription
row matches, and populated with each matching row otherwise. -/
theorem C2_join_semantics :
    (∀ pairs serials (r : TallyRow × Serial),
        r ∈ stage1 pairs serials ↔
          r.1 ∈ refTally pairs ∧ r.2 ∈ serials ∧ serialPred r.1 r.2 = true) ∧
    (∀ pairs serials (subs : List Sub) (a : TallyRow × Serial),
        a ∈ stage1 pairs serials ↔ ∃ ob, (a, ob) ∈ stage2 pairs serials subs) ∧
    (∀ pairs serials (subs : List Sub) (a : TallyRow × Serial),
        ((a, (none : Option Sub)) ∈ stage2 pairs serials subs ↔
          a ∈ stage1 pairs serials ∧ ∀ b ∈ subs, subMatch a b = false)) ∧
    (∀ pairs serials (subs : List Sub) (a : TallyRow × Serial) (b : Sub),
        ((a, some b) ∈ stage2 pairs serials subs ↔
          a ∈ stage1 pairs serials ∧ b ∈ subs ∧ subMatch a b = true)) := by
  refine ⟨?_, ?_, ?_, ?_⟩
  · intro pairs serials r
    unfold stage1
    exact mem_innerJoin
  · intro pairs serials subs a
    unfold stage2
    constructor
    · intro ha
      rcases hm : subs.filter (fun b => subMatch a b) with _ | ⟨m, ms⟩
      · refine ⟨none, ?_⟩
        rw [mem_leftOuterJoin_none]
        refine ⟨ha, fun b hb => ?_⟩
        have hf := List.filter_eq_nil_iff.1 hm b hb
        simpa using hf
      · have hm2 : m ∈ subs.filter (fun b => subMatch a b) := by rw [hm]; simp
        rw [List.mem_filter] at hm2
        exact ⟨some m, mem_leftOuterJoin_some.2 ⟨ha, hm2.1, hm2.2⟩⟩
    · rintro ⟨ob, h⟩
      exact mem_leftOuterJoin_fst h
  · intro pairs serials subs a
    unfold stage2
    exact mem_leftOuterJoin_none
  · intro pairs serials subs a b
    unfold stage2
    exact mem_leftOuterJoin_some

/-- Claim C2 witness: a concrete tally row joined with its matching serial is
in stage 1. -/
theorem C2_witness :
    (⟨codes "Nature", codes "nature", 1⟩,
      ⟨codes "21206", some (codes "Nature"), none, none, none⟩) ∈
      stage1 [⟨some (codes "Nature"), some (codes "A")⟩]
        [⟨codes "21206", some (codes "Nature"), none, none, none⟩] :=
  (C2_join_semantics.1 [⟨some (codes "Nature"), some (codes "A")⟩]
    [⟨codes "21206", some (codes "Nature"), none, none, none⟩]
    (⟨codes "Nature", codes "nature", 1⟩,
      ⟨codes "21206", some (codes "Nature"), none, none, none⟩)).mpr (by decide)

/-- Claim C1 counterexample: a serial whose ISSN is the present four-character
string "null" and a subscription row with the same present ISSN satisfy the
matching condition of the claim (present identifiers, equal), yet the guard
comparing serial_issn with the literal string null rejects it and the join
does not match. -/
theorem C1_counterexample :
    claimMatch
      (⟨codes "A", codes "a", 1⟩,
        ⟨codes "111", some (codes "A"), some nullStr, none, none⟩)
      ⟨some (codes "b"), some nullStr, none⟩ ∧
    subMatch
      (⟨codes "A", codes "a", 1⟩,
        ⟨codes "111", some (codes "A"), some nullStr, none, none⟩)
      ⟨some (codes "b"), some nullStr, none⟩ = false := by decide

/-- Claim C1 amended: the subscription join matches exactly when the
lower-cased stage-1 title equals the subscription title, or the serial ISSN is
present AND different from the literal string "null" and equals the
subscription ISSN or eISSN, or likewise for the serial eISSN; a
present-but-differing identifier never matches, and a missing identifier —
or one equal to the string "null" — never participates. -/
theorem C1_amended (r : TallyRow × Serial) (b : Sub) :
    subMatch r b = true ↔
      (b.Title = some r.1.ref_journal_lc ∨
       (∃ v, r.2.serial_issn = some v ∧ v ≠ nullStr ∧
          (b.ISSN = some v ∨ b.eISSN = some v)) ∨
       (∃ v, r.2.serial_eissn = some v ∧ v ≠ nullStr ∧
          (b.eISSN = some v ∨ b.ISSN = some v))) := by
  simp only [subMatch, istrue_sqlOr, istrue_sqlAnd, Bool.or_eq_true,
    Bool.and_eq_true, istrue_sqlEq_iff, istrue_sqlNe_null_iff]
  rw [sql_branch_iff, sql_branch_iff]
  simp [or_assoc]

/-- Claim C1 witness: a title-equality match at concrete rows. -/
theorem C1_witness :
    subMatch (⟨codes "A", codes "a", 1⟩,
        ⟨codes "1", some (codes "A"), none, none, none⟩)
      ⟨some (codes "a"), none, none⟩ = true :=
  (C1_amended (⟨codes "A", codes "a", 1⟩,
      ⟨codes "1", some (codes "A"), none, none, none⟩)
    ⟨some (codes "a"), none, none⟩).mpr (Or.inl (by decide))

end Scopus
